import Mathlib

/-!
Verification of the nightcage tile-grid editor core (src/main.rs).

The program is a bevy application over a fixed 7x7 tilemap of 128x128
tiles centred at the world origin.  We shallowly embed the per-frame
systems as pure functions on an explicit game state:

  * `CursorPos` (world-space pointer position, sentinel (-1000,-1000))
    becomes a pair of rationals (the float arithmetic involved — division
    by the power of two 128, adding 1/2, floor — is exact on the ranges
    involved, so rationals model it faithfully);
  * each tile entity's components `HighlightedLabel`, `IlluminatedLabel`,
    `TileType` and `TileFlip` become the fields of `Cell`;
  * the resources `NextTileTextureIndex` and the `Local<u32>` rotation
    counter of `rotate_highlighted_tile` become `Nat` fields (their only
    updates are `(n % 4) + 1` and `(n + 1) % 4`, so no u32 overflow can
    occur and `Nat` is exact);
  * each system (`highlight_tile_labels`, `place_highlighted_tile`,
    `rotate_highlighted_tile`, `apply_tile_textures`,
    `cycle_tile_texture_index`) becomes a state transformer, applied once
    per qualifying event / frame.
-/

namespace Nightcage

/-- Grid width: `TilemapSize { x: 7, y: 7 }` in `startup`. -/
def mapSizeX : Nat := 7

/-- Grid height: `TilemapSize { x: 7, y: 7 }` in `startup`. -/
def mapSizeY : Nat := 7

/-- A discrete tile coordinate, as bevy_ecs_tilemap's `TilePos`. -/
structure TilePos where
  x : Nat
  y : Nat
deriving DecidableEq, Repr

/-- The `TileFlip` component: horizontal / vertical / diagonal flip flags,
all false by default (`TileBundle::default`). -/
structure TileFlip where
  x : Bool
  y : Bool
  d : Bool
deriving DecidableEq, Repr

/-- Per-tile-entity component state.  `hovered` models presence of the
`HighlightedLabel` marker component, `illuminated` of `IlluminatedLabel`,
`tile_type` of the optional `TileType { texture_index }` component. -/
structure Cell where
  hovered : Bool
  illuminated : Bool
  tile_type : Option Nat
  flip : TileFlip
deriving DecidableEq, Repr

/-- A freshly spawned tile: no labels, no `TileType`, default flip. -/
def Cell.init : Cell :=
  { hovered := false, illuminated := false, tile_type := none,
    flip := { x := false, y := false, d := false } }

/-- The whole mutable state the in-scope systems touch.  `cells` is total
on `Nat × Nat` for convenience; only coordinates below 7 are ever set. -/
structure GameState where
  cells : Nat → Nat → Cell
  next_index : Nat
  flips : Nat
  cursor : ℚ × ℚ

/-- `CursorPos::default`: the sentinel pointer position (-1000, -1000). -/
def cursorDefault : ℚ × ℚ := (-1000, -1000)

/-- The state after `startup` with default resources: every tile fresh,
`NextTileTextureIndex(1)`, rotation counter 0, sentinel cursor. -/
def initialState : GameState :=
  { cells := fun _ _ => Cell.init, next_index := 1, flips := 0,
    cursor := cursorDefault }

/-- `update_cursor_pos` upon a cursor-moved event resolving to world
position `p` (camera projection itself is out of scope). -/
def setCursor (s : GameState) (p : ℚ × ℚ) : GameState :=
  { s with cursor := p }

/-- Modelled from the spec: the tilemap's centre transform
(`get_tilemap_center_transform`, a bevy_ecs_tilemap helper whose code is
not part of this repository).  For a 7x7 map of 128-sized tiles it is the
translation by minus the midpoint of the first and last tile centres,
i.e. (-384, -384); the spec describes it as the grid's placement
transform mapping grid-local space to world space. -/
def mapTranslation : ℚ × ℚ := (-384, -384)

/-- Modelled from the spec: the square-grid tile lookup
`TilePos::from_world_pos` (bevy_ecs_tilemap, not part of this
repository's sources).  Spec 4.1: map into grid-local space, divide by
the cell size and floor to integer indices — tile (x,y) being centred at
local (128x, 128y), the index is floor(local/128 + 1/2) — and reject
indices outside [0,width) x [0,height). -/
def from_world_pos (p : ℚ × ℚ) : Option TilePos :=
  if 0 ≤ Int.floor (p.1 / 128 + 1 / 2) ∧ 0 ≤ Int.floor (p.2 / 128 + 1 / 2) ∧
      Int.floor (p.1 / 128 + 1 / 2) < 7 ∧ Int.floor (p.2 / 128 + 1 / 2) < 7 then
    some { x := (Int.floor (p.1 / 128 + 1 / 2)).toNat,
           y := (Int.floor (p.2 / 128 + 1 / 2)).toNat }
  else
    none

/-- The coordinate resolution performed inside `highlight_tile_labels`:
apply the inverse map transform to the cursor's world position, then look
the grid-local position up as a tile position. -/
def resolveTile (cursor : ℚ × ℚ) : Option TilePos :=
  from_world_pos (cursor.1 - mapTranslation.1, cursor.2 - mapTranslation.2)

/-- Modelled from the spec: the orthogonal neighbourhood
`Neighbors::get_square_neighboring_positions(&tile_pos, &map_size, false)`
(bevy_ecs_tilemap, not part of this repository's sources).  Spec 4.2: the
up/down/left/right neighbours, diagonals excluded, clipped to grid
bounds. -/
def squareNeighbors (p : TilePos) : List TilePos :=
  (if p.y + 1 < mapSizeY then [{ x := p.x, y := p.y + 1 : TilePos }] else []) ++
  (if 0 < p.y then [{ x := p.x, y := p.y - 1 : TilePos }] else []) ++
  (if p.x + 1 < mapSizeX then [{ x := p.x + 1, y := p.y : TilePos }] else []) ++
  (if 0 < p.x then [{ x := p.x - 1, y := p.y : TilePos }] else [])

/-- Point update of the cell table at tile position `p`. -/
def setCell (cells : Nat → Nat → Cell) (p : TilePos) (c : Cell) :
    Nat → Nat → Cell :=
  fun x y => if x = p.x ∧ y = p.y then c else cells x y

/-- The flag-clearing loops at the head of `highlight_tile_labels`:
remove `HighlightedLabel` and `IlluminatedLabel` wherever present. -/
def clearLabels (cells : Nat → Nat → Cell) : Nat → Nat → Cell :=
  fun x y => { cells x y with hovered := false, illuminated := false }

/-- The `highlight_tile_labels` system, once per frame: clear both label
components everywhere, then, if the cursor resolves to a tile position,
insert `HighlightedLabel` on that tile and `IlluminatedLabel` on each of
its in-bounds orthogonal neighbours (every in-bounds position has a tile
entity, set up in `startup`). -/
def highlight_tile_labels (s : GameState) : GameState :=
  let cleared := clearLabels s.cells
  match resolveTile s.cursor with
  | none => { s with cells := cleared }
  | some p =>
    let hovered := setCell cleared p { cleared p.x p.y with hovered := true }
    let illuminated := (squareNeighbors p).foldl
      (fun cs q => setCell cs q { cs q.x q.y with illuminated := true }) hovered
    { s with cells := illuminated }

/-- The `place_highlighted_tile` system upon one left-button press event:
insert `TileType { texture_index: next_tile_texture_index.0 }` on every
tile currently bearing `HighlightedLabel`. -/
def place_highlighted_tile (s : GameState) : GameState :=
  { s with cells := fun x y =>
      if (s.cells x y).hovered then
        { s.cells x y with tile_type := some s.next_index }
      else s.cells x y }

/-- The tile positions currently bearing `HighlightedLabel`, in row-major
order (the iteration order of the query over hovered entities). -/
def hoveredPositions (s : GameState) : List TilePos :=
  (List.range mapSizeX).flatMap fun x =>
    (List.range mapSizeY).filterMap fun y =>
      if (s.cells x y).hovered then some { x := x, y := y : TilePos } else none

/-- The flip assignment of the `match *flips` arms in
`rotate_highlighted_tile`: counter value 0 ↦ identity, 1 ↦ (x, d),
2 ↦ (x, y), anything else ↦ (y, d). -/
def flipTable : Nat → TileFlip
  | 0 => { x := false, y := false, d := false }
  | 1 => { x := true, y := false, d := true }
  | 2 => { x := true, y := true, d := false }
  | _ => { x := false, y := true, d := true }

/-- The body of the loop over highlighted tiles in
`rotate_highlighted_tile`: bump the shared `Local<u32>` counter by
`*flips = (*flips + 1) % 4`, then overwrite this tile's flip from the
match table. -/
def rotStep (st : GameState) (p : TilePos) : GameState :=
  { st with
    flips := (st.flips + 1) % 4,
    cells := setCell st.cells p
      { st.cells p.x p.y with flip := flipTable ((st.flips + 1) % 4) } }

/-- The `rotate_highlighted_tile` system upon one right-button press
event: run `rotStep` on each tile bearing `HighlightedLabel` (every grid
tile has a `TileFlip`, so the component lookup always succeeds). -/
def rotate_highlighted_tile (s : GameState) : GameState :=
  (hoveredPositions s).foldl rotStep s

/-- The `apply_tile_textures` system, once per frame: the
`TileTextureIndex` it inserts on the tile at (x, y) — the next-index
preview for highlighted tiles, otherwise the `TileType`'s texture index,
defaulting to 0 when the component is absent. -/
def apply_tile_textures (s : GameState) (x y : Nat) : Nat :=
  if (s.cells x y).hovered then s.next_index
  else
    match (s.cells x y).tile_type with
    | some t => t
    | none => 0

/-- `NextTileTextureIndex::next`: the advance operation of the next-type
cursor, `self.0 = (self.0 % 4) + 1`. -/
def NextTileTextureIndex.next (n : Nat) : Nat := (n % 4) + 1

/-- The `cycle_tile_texture_index` system upon one space-key press event:
advance the `NextTileTextureIndex` resource. -/
def cycle_tile_texture_index (s : GameState) : GameState :=
  { s with next_index := NextTileTextureIndex.next s.next_index }

/-- The world-space region the 7x7 grid occupies: tile (0,0) is centred at
world (-384,-384) and tile (6,6) at (384,384), each tile 128 wide, so the
grid spans (-448, 448) on each axis. -/
def insideGridWorldBounds (p : ℚ × ℚ) : Prop :=
  -448 < p.1 ∧ p.1 < 448 ∧ -448 < p.2 ∧ p.2 < 448

/-- Strictly beyond the grid's world-space extent on at least one axis. -/
def outsideGridWorldBounds (p : ℚ × ℚ) : Prop :=
  p.1 < -448 ∨ 448 < p.1 ∨ p.2 < -448 ∨ 448 < p.2

/-! ### Helper lemmas -/

lemma resolveTile_some_lt {c : ℚ × ℚ} {p : TilePos} (h : resolveTile c = some p) :
    p.x < 7 ∧ p.y < 7 := by
  unfold resolveTile from_world_pos at h
  dsimp only at h
  split at h
  · rename_i hc
    cases h
    constructor <;> simp only [Int.toNat_lt'] <;> omega
  · cases h

lemma resolveTile_concrete (c : ℚ × ℚ) (a b : ℤ)
    (ha : Int.floor ((c.1 - mapTranslation.1) / 128 + 1 / 2) = a)
    (hb : Int.floor ((c.2 - mapTranslation.2) / 128 + 1 / 2) = b) :
    resolveTile c =
      if 0 ≤ a ∧ 0 ≤ b ∧ a < 7 ∧ b < 7 then
        some { x := a.toNat, y := b.toNat } else none := by
  unfold resolveTile from_world_pos
  rw [ha, hb]

lemma floor_rat_eq (v : ℚ) (a : ℤ) (h1 : (a : ℚ) ≤ v) (h2 : v < a + 1) :
    Int.floor v = a :=
  Int.floor_eq_iff.mpr ⟨h1, h2⟩

lemma resolveTile_at_00 :
    resolveTile ((-384 : ℚ), (-384 : ℚ)) = some { x := 0, y := 0 } := by
  rw [resolveTile_concrete _ 0 0
    (floor_rat_eq _ 0 (by norm_num [mapTranslation]) (by norm_num [mapTranslation]))
    (floor_rat_eq _ 0 (by norm_num [mapTranslation]) (by norm_num [mapTranslation]))]
  norm_num

lemma resolveTile_at_11 :
    resolveTile ((-256 : ℚ), (-256 : ℚ)) = some { x := 1, y := 1 } := by
  rw [resolveTile_concrete _ 1 1
    (floor_rat_eq _ 1 (by norm_num [mapTranslation]) (by norm_num [mapTranslation]))
    (floor_rat_eq _ 1 (by norm_num [mapTranslation]) (by norm_num [mapTranslation]))]
  norm_num

lemma resolveTile_at_33 :
    resolveTile ((0 : ℚ), (0 : ℚ)) = some { x := 3, y := 3 } := by
  rw [resolveTile_concrete _ 3 3
    (floor_rat_eq _ 3 (by norm_num [mapTranslation]) (by norm_num [mapTranslation]))
    (floor_rat_eq _ 3 (by norm_num [mapTranslation]) (by norm_num [mapTranslation]))]
  norm_num
  decide

lemma resolveTile_at_43 :
    resolveTile ((128 : ℚ), (0 : ℚ)) = some { x := 4, y := 3 } := by
  rw [resolveTile_concrete _ 4 3
    (floor_rat_eq _ 4 (by norm_num [mapTranslation]) (by norm_num [mapTranslation]))
    (floor_rat_eq _ 3 (by norm_num [mapTranslation]) (by norm_num [mapTranslation]))]
  norm_num
  decide

lemma resolveTile_sentinel : resolveTile cursorDefault = none := by
  rw [show cursorDefault = ((-1000 : ℚ), (-1000 : ℚ)) from rfl]
  rw [resolveTile_concrete _ (-5) (-5)
    (floor_rat_eq _ (-5) (by norm_num [mapTranslation]) (by norm_num [mapTranslation]))
    (floor_rat_eq _ (-5) (by norm_num [mapTranslation]) (by norm_num [mapTranslation]))]
  norm_num

lemma not_mem_squareNeighbors_self (p : TilePos) : p ∉ squareNeighbors p := by
  obtain ⟨px, py⟩ := p
  unfold squareNeighbors
  simp only [List.mem_append]
  intro hmem
  rcases hmem with ((h | h) | h) | h <;>
    split_ifs at h <;>
    simp only [List.mem_singleton, TilePos.mk.injEq, List.not_mem_nil] at h <;>
    omega

lemma foldl_illum (l : List TilePos) (cs : Nat → Nat → Cell) (x y : Nat) :
    (l.foldl (fun cs q => setCell cs q { cs q.x q.y with illuminated := true }) cs) x y
      = if { x := x, y := y : TilePos } ∈ l then { cs x y with illuminated := true }
        else cs x y := by
  induction l generalizing cs with
  | nil => simp
  | cons q t ih =>
    obtain ⟨qx, qy⟩ := q
    simp only [List.foldl_cons, List.mem_cons]
    rw [ih]
    by_cases hq : x = qx ∧ y = qy
    · obtain ⟨hx, hy⟩ := hq
      subst hx; subst hy
      simp [setCell]
    · have hne : ¬(TilePos.mk x y = TilePos.mk qx qy) := by
        simp only [TilePos.mk.injEq]; exact hq
      simp [setCell, hq, hne]

lemma highlight_cell_none {s : GameState} (x y : Nat)
    (h : resolveTile s.cursor = none) :
    (highlight_tile_labels s).cells x y =
      { s.cells x y with hovered := false, illuminated := false } := by
  unfold highlight_tile_labels
  rw [h]
  rfl

lemma highlight_cell_some {s : GameState} {p : TilePos} (x y : Nat)
    (h : resolveTile s.cursor = some p) :
    (highlight_tile_labels s).cells x y =
      { s.cells x y with
        hovered := decide (x = p.x ∧ y = p.y),
        illuminated := decide ({ x := x, y := y : TilePos } ∈ squareNeighbors p) } := by
  unfold highlight_tile_labels
  rw [h]
  simp only
  rw [foldl_illum]
  by_cases hxy : x = p.x ∧ y = p.y
  · obtain ⟨hx, hy⟩ := hxy
    have hp : TilePos.mk x y = p := by cases p; simp_all
    rw [hp]
    simp [not_mem_squareNeighbors_self, setCell, clearLabels, hx, hy]
  · have hcell : setCell (clearLabels s.cells) p
        { clearLabels s.cells p.x p.y with hovered := true } x y
        = clearLabels s.cells x y := by
      simp [setCell, hxy]
    rw [hcell]
    by_cases hmem : TilePos.mk x y ∈ squareNeighbors p <;>
      simp [hmem, clearLabels, hxy]

lemma highlight_next_index (s : GameState) :
    (highlight_tile_labels s).next_index = s.next_index := by
  unfold highlight_tile_labels
  cases resolveTile s.cursor <;> rfl

lemma highlight_flips (s : GameState) :
    (highlight_tile_labels s).flips = s.flips := by
  unfold highlight_tile_labels
  cases resolveTile s.cursor <;> rfl

lemma highlight_cursor (s : GameState) :
    (highlight_tile_labels s).cursor = s.cursor := by
  unfold highlight_tile_labels
  cases resolveTile s.cursor <;> rfl

lemma hoveredPositions_congr {s t : GameState}
    (h : ∀ x y, (s.cells x y).hovered = (t.cells x y).hovered) :
    hoveredPositions s = hoveredPositions t := by
  unfold hoveredPositions
  have hfun : (fun x => (List.range mapSizeY).filterMap fun y =>
        if (s.cells x y).hovered then some { x := x, y := y : TilePos } else none)
      = fun x => (List.range mapSizeY).filterMap fun y =>
        if (t.cells x y).hovered then some { x := x, y := y : TilePos } else none := by
    funext x
    have hf : (fun y => if (s.cells x y).hovered then some { x := x, y := y : TilePos } else none)
        = fun y => if (t.cells x y).hovered then some { x := x, y := y : TilePos } else none := by
      funext y
      rw [h]
    rw [hf]
  rw [hfun]

lemma hoveredPositions_highlight_none {s : GameState}
    (h : resolveTile s.cursor = none) :
    hoveredPositions (highlight_tile_labels s) = [] := by
  unfold hoveredPositions
  have hcell : ∀ x y, ((highlight_tile_labels s).cells x y).hovered = false := by
    intro x y
    rw [highlight_cell_none x y h]
  simp [hcell]

lemma hoveredPositions_highlight_some {s : GameState} {p : TilePos}
    (h : resolveTile s.cursor = some p) :
    hoveredPositions (highlight_tile_labels s) = [p] := by
  obtain ⟨hx7, hy7⟩ := resolveTile_some_lt h
  have hcell : ∀ x y, ((highlight_tile_labels s).cells x y).hovered
      = decide (x = p.x ∧ y = p.y) := by
    intro x y
    rw [highlight_cell_some x y h]
  unfold hoveredPositions
  obtain ⟨px, py⟩ := p
  simp only [hcell]
  simp only [mapSizeX, mapSizeY] at *
  interval_cases px <;> interval_cases py <;> decide

lemma highlight_cell_flip (s : GameState) (x y : Nat) :
    ((highlight_tile_labels s).cells x y).flip = (s.cells x y).flip := by
  cases hres : resolveTile s.cursor with
  | none => rw [highlight_cell_none x y hres]
  | some p => rw [highlight_cell_some x y hres]

lemma highlight_cell_tile_type (s : GameState) (x y : Nat) :
    ((highlight_tile_labels s).cells x y).tile_type = (s.cells x y).tile_type := by
  cases hres : resolveTile s.cursor with
  | none => rw [highlight_cell_none x y hres]
  | some p => rw [highlight_cell_some x y hres]

lemma rotStep_cells (st : GameState) (p : TilePos) (x y : Nat) :
    ((rotStep st p).cells x y).hovered = (st.cells x y).hovered
      ∧ ((rotStep st p).cells x y).illuminated = (st.cells x y).illuminated
      ∧ ((rotStep st p).cells x y).tile_type = (st.cells x y).tile_type := by
  unfold rotStep
  simp only [setCell]
  split_ifs with hc
  · obtain ⟨hx, hy⟩ := hc
    subst hx; subst hy
    exact ⟨rfl, rfl, rfl⟩
  · exact ⟨rfl, rfl, rfl⟩

lemma rotate_foldl_cells (l : List TilePos) (s : GameState) (x y : Nat) :
    ((l.foldl rotStep s).cells x y).hovered = (s.cells x y).hovered
      ∧ ((l.foldl rotStep s).cells x y).illuminated = (s.cells x y).illuminated
      ∧ ((l.foldl rotStep s).cells x y).tile_type = (s.cells x y).tile_type := by
  induction l generalizing s with
  | nil => exact ⟨rfl, rfl, rfl⟩
  | cons q t ih =>
    simp only [List.foldl_cons]
    obtain ⟨ha, hb, hc⟩ := ih (rotStep s q)
    obtain ⟨sa, sb, sc⟩ := rotStep_cells s q x y
    exact ⟨ha.trans sa, hb.trans sb, hc.trans sc⟩

lemma rotate_foldl_res (l : List TilePos) (s : GameState) :
    (l.foldl rotStep s).next_index = s.next_index
      ∧ (l.foldl rotStep s).cursor = s.cursor := by
  induction l generalizing s with
  | nil => exact ⟨rfl, rfl⟩
  | cons q t ih =>
    simp only [List.foldl_cons]
    exact ih (rotStep s q)

lemma rotate_cells_pres (s : GameState) (x y : Nat) :
    ((rotate_highlighted_tile s).cells x y).hovered = (s.cells x y).hovered
      ∧ ((rotate_highlighted_tile s).cells x y).illuminated = (s.cells x y).illuminated
      ∧ ((rotate_highlighted_tile s).cells x y).tile_type = (s.cells x y).tile_type := by
  unfold rotate_highlighted_tile
  exact rotate_foldl_cells (hoveredPositions s) s x y

lemma rotate_res_pres (s : GameState) :
    (rotate_highlighted_tile s).next_index = s.next_index
      ∧ (rotate_highlighted_tile s).cursor = s.cursor := by
  unfold rotate_highlighted_tile
  exact rotate_foldl_res (hoveredPositions s) s

lemma rotate_single {s : GameState} {p : TilePos}
    (h : hoveredPositions s = [p]) :
    rotate_highlighted_tile s = rotStep s p := by
  unfold rotate_highlighted_tile
  rw [h]
  rfl

lemma rotate_empty {s : GameState} (h : hoveredPositions s = []) :
    rotate_highlighted_tile s = s := by
  unfold rotate_highlighted_tile
  rw [h]
  rfl

lemma next_iterate (n : Nat) :
    NextTileTextureIndex.next^[n] 1 = n % 4 + 1 := by
  induction n with
  | zero => rfl
  | succ m ih =>
    rw [Function.iterate_succ_apply', ih]
    unfold NextTileTextureIndex.next
    omega

lemma frame_step {s : GameState} {p : TilePos}
    (hres : resolveTile s.cursor = some p) :
    (rotate_highlighted_tile (highlight_tile_labels s)).cursor = s.cursor
    ∧ (rotate_highlighted_tile (highlight_tile_labels s)).flips = (s.flips + 1) % 4
    ∧ (∀ x y, ((rotate_highlighted_tile (highlight_tile_labels s)).cells x y).flip
        = if x = p.x ∧ y = p.y then flipTable ((s.flips + 1) % 4)
          else (s.cells x y).flip)
    ∧ (∀ x y, ((rotate_highlighted_tile (highlight_tile_labels s)).cells x y).tile_type
        = (s.cells x y).tile_type)
    ∧ (rotate_highlighted_tile (highlight_tile_labels s)).next_index = s.next_index := by
  have hrot := rotate_single (hoveredPositions_highlight_some hres)
  rw [hrot]
  unfold rotStep
  refine ⟨highlight_cursor s, ?_, ?_, ?_, highlight_next_index s⟩
  · rw [highlight_flips]
  · intro x y
    simp only [setCell]
    split_ifs with hc
    · rw [highlight_flips]
    · exact highlight_cell_flip s x y
  · intro x y
    simp only [setCell]
    split_ifs with hc
    · obtain ⟨hx, hy⟩ := hc
      rw [hx, hy]
      exact highlight_cell_tile_type s p.x p.y
    · exact highlight_cell_tile_type s x y

/-! ### Claim theorems -/

/-- C3: the Next-Type Cursor starts at 1 (`NextTileTextureIndex::default`)
and advancing maps the value through `(c mod 4) + 1`, so after n advances
the value is `(n mod 4) + 1` — the cyclic sequence 1,2,3,4,1,2,… — and
for every number of advances the value lies in [1,4]: never 0 and never
above 4. -/
theorem C3_next_type_cursor_cycles (n : Nat) :
    NextTileTextureIndex.next^[n] initialState.next_index = n % 4 + 1
    ∧ 1 ≤ NextTileTextureIndex.next^[n] initialState.next_index
    ∧ NextTileTextureIndex.next^[n] initialState.next_index ≤ 4
    ∧ NextTileTextureIndex.next^[n] initialState.next_index ≠ 0 := by
  have h : NextTileTextureIndex.next^[n] initialState.next_index = n % 4 + 1 :=
    next_iterate n
  rw [h]
  omega

/-- C7: after `highlight_tile_labels` runs, a cell is hovered exactly when
the pointer resolves to its coordinate — so at most one cell is hovered,
and none when the pointer resolves to no cell. -/
theorem C7_at_most_one_hovered (s : GameState) (x y : Nat) :
    ((highlight_tile_labels s).cells x y).hovered = true
      ↔ resolveTile s.cursor = some { x := x, y := y } := by
  cases hres : resolveTile s.cursor with
  | none =>
    rw [highlight_cell_none x y hres]
    simp
  | some p =>
    rw [highlight_cell_some x y hres]
    obtain ⟨px, py⟩ := p
    simp only [decide_eq_true_eq, Option.some.injEq, TilePos.mk.injEq]
    omega

/-- C10: after `highlight_tile_labels`, the hovered cell is never also
illuminated: the illuminated set is the strict orthogonal neighbourhood of
the hovered coordinate, which excludes the hovered cell itself. -/
theorem C10_hovered_not_illuminated (s : GameState) (x y : Nat) :
    (((highlight_tile_labels s).cells x y).hovered
      && ((highlight_tile_labels s).cells x y).illuminated) = false := by
  cases hres : resolveTile s.cursor with
  | none =>
    rw [highlight_cell_none x y hres]
    rfl
  | some p =>
    rw [highlight_cell_some x y hres]
    by_cases hxy : x = p.x ∧ y = p.y
    · have hp : TilePos.mk x y = p := by
        obtain ⟨px, py⟩ := p
        simp_all
      simp [hp, not_mem_squareNeighbors_self]
    · simp [hxy]

/-- C6: upon a left-button press, every hovered cell's `TileType` becomes
the current Next-Type Cursor value; the cursor resource itself is read,
not mutated; and when no cell is hovered the event is a silent no-op
leaving the whole state unchanged. -/
theorem C6_place_on_hovered (s : GameState) :
    (place_highlighted_tile s).next_index = s.next_index
    ∧ (∀ x y, (s.cells x y).hovered = true →
        ((place_highlighted_tile s).cells x y).tile_type = some s.next_index)
    ∧ ((∀ x y, (s.cells x y).hovered = false) → place_highlighted_tile s = s) := by
  refine ⟨rfl, ?_, ?_⟩
  · intro x y h
    simp [place_highlighted_tile, h]
  · intro h
    have hcells : (fun x y =>
        if (s.cells x y).hovered then
          { s.cells x y with tile_type := some s.next_index }
        else s.cells x y) = s.cells := by
      funext x y
      rw [h x y]
      simp
    unfold place_highlighted_tile
    rw [hcells]

/-- Witness for C6: on the initial state (no cell hovered) a left press
is a no-op, and with tile (0,0) hovered a left press places type 1. -/
theorem C6_place_on_hovered_witness :
    place_highlighted_tile initialState = initialState
    ∧ ((place_highlighted_tile
          (highlight_tile_labels (setCursor initialState ((-384 : ℚ), (-384 : ℚ))))).cells 0 0).tile_type
        = some (highlight_tile_labels (setCursor initialState ((-384 : ℚ), (-384 : ℚ)))).next_index := by
  constructor
  · exact (C6_place_on_hovered initialState).2.2 (fun _ _ => rfl)
  · refine (C6_place_on_hovered _).2.1 0 0 ?_
    rw [highlight_cell_some
      (s := setCursor initialState ((-384 : ℚ), (-384 : ℚ))) 0 0 resolveTile_at_00]
    rfl

/-- C9 counterexample: with the pointer over the empty tile (0,0) and the
cursor at its initial value 1, `apply_tile_textures` exposes texture index
1 for that cell although its `type_index` is absent — the claim predicts
the default 0. -/
theorem C9_counterexample :
    apply_tile_textures
        (highlight_tile_labels (setCursor initialState ((-384 : ℚ), (-384 : ℚ)))) 0 0 = 1
    ∧ ((highlight_tile_labels (setCursor initialState ((-384 : ℚ), (-384 : ℚ)))).cells 0 0).tile_type
        = none
    ∧ ¬(apply_tile_textures
          (highlight_tile_labels (setCursor initialState ((-384 : ℚ), (-384 : ℚ)))) 0 0
        = Option.getD
            ((highlight_tile_labels (setCursor initialState ((-384 : ℚ), (-384 : ℚ)))).cells 0 0).tile_type
            0) := by
  have h00 := highlight_cell_some
    (s := setCursor initialState ((-384 : ℚ), (-384 : ℚ))) 0 0 resolveTile_at_00
  have happ : apply_tile_textures
      (highlight_tile_labels (setCursor initialState ((-384 : ℚ), (-384 : ℚ)))) 0 0 = 1 := by
    unfold apply_tile_textures
    rw [h00, highlight_next_index]
    rfl
  have htt : ((highlight_tile_labels
      (setCursor initialState ((-384 : ℚ), (-384 : ℚ)))).cells 0 0).tile_type = none := by
    rw [h00]
    rfl
  refine ⟨happ, htt, ?_⟩
  rw [happ, htt]
  simp

/-- C9 amended: for every non-hovered cell the texture index exposed to
rendering equals the cell's placed `type_index`, defaulting to 0 when it
is absent; a hovered cell instead previews the current Next-Type Cursor
value. -/
theorem C9_textures_amended (s : GameState) (x y : Nat) :
    ((s.cells x y).hovered = false →
      apply_tile_textures s x y = Option.getD ((s.cells x y).tile_type) 0)
    ∧ ((s.cells x y).hovered = true → apply_tile_textures s x y = s.next_index) := by
  constructor <;> intro h <;> unfold apply_tile_textures <;> rw [h]
  · simp only [Bool.false_eq_true, if_false]
    cases (s.cells x y).tile_type <;> rfl
  · rfl

/-- Witness for C9 amended: on the initial state, cell (0,0) is not
hovered and renders as its default texture 0. -/
theorem C9_textures_amended_witness :
    apply_tile_textures initialState 0 0
      = Option.getD ((initialState.cells 0 0).tile_type) 0 :=
  (C9_textures_amended initialState 0 0).1 rfl

/-- C1: whenever the propagator runs with a resolved hovered coordinate
p, afterwards exactly the in-bounds orthogonal neighbours of p — the
cells at (p.x±1, p.y) and (p.x, p.y±1) inside the 7x7 grid — are
illuminated and every other cell (whatever was illuminated before) is
not; the neighbour count is 2 at a corner, 3 on a non-corner edge and 4
in the interior. -/
theorem C1_illuminated_exactly_neighbors (s : GameState) (p : TilePos)
    (hres : resolveTile s.cursor = some p) :
    (∀ x y, (((highlight_tile_labels s).cells x y).illuminated = true
        ↔ { x := x, y := y : TilePos } ∈ squareNeighbors p))
    ∧ (∀ q : TilePos, q ∈ squareNeighbors p ↔
        (q.x < 7 ∧ q.y < 7 ∧
          ((q.x = p.x + 1 ∧ q.y = p.y) ∨ (q.x + 1 = p.x ∧ q.y = p.y) ∨
           (q.x = p.x ∧ q.y = p.y + 1) ∨ (q.x = p.x ∧ q.y + 1 = p.y))))
    ∧ ((squareNeighbors p).length =
        if (p.x = 0 ∨ p.x = 6) ∧ (p.y = 0 ∨ p.y = 6) then 2
        else if p.x = 0 ∨ p.x = 6 ∨ p.y = 0 ∨ p.y = 6 then 3 else 4) := by
  obtain ⟨hx7, hy7⟩ := resolveTile_some_lt hres
  refine ⟨?_, ?_, ?_⟩
  · intro x y
    rw [highlight_cell_some x y hres]
    simp
  · intro q
    obtain ⟨qx, qy⟩ := q
    obtain ⟨px, py⟩ := p
    simp only at hx7 hy7
    unfold squareNeighbors
    simp only [mapSizeX, mapSizeY, List.mem_append, List.mem_singleton]
    constructor
    · intro hmem
      rcases hmem with ((h | h) | h) | h <;>
        split_ifs at h <;>
        simp only [List.mem_singleton, TilePos.mk.injEq, List.not_mem_nil] at h <;>
        omega
    · intro hq
      simp only [TilePos.mk.injEq] at hq ⊢
      split_ifs <;>
        simp only [List.mem_singleton, TilePos.mk.injEq, List.not_mem_nil] <;>
        omega
  · obtain ⟨px, py⟩ := p
    simp only at hx7 hy7
    unfold squareNeighbors
    simp only [mapSizeX, mapSizeY]
    split_ifs <;> simp_all <;> omega

/-- Witness for C1: pointer over the corner tile (0,0) — cell (0,1) is
illuminated exactly when it is a neighbour of (0,0) (and it is), and the
corner has exactly 2 in-bounds neighbours. -/
theorem C1_illuminated_exactly_neighbors_witness :
    (((highlight_tile_labels (setCursor initialState ((-384 : ℚ), (-384 : ℚ)))).cells 0 1).illuminated = true
        ↔ { x := 0, y := 1 : TilePos } ∈ squareNeighbors { x := 0, y := 0 })
    ∧ (squareNeighbors { x := 0, y := 0 : TilePos }).length = 2
    ∧ ((highlight_tile_labels (setCursor initialState ((-384 : ℚ), (-384 : ℚ)))).cells 0 1).illuminated = true := by
  have h := C1_illuminated_exactly_neighbors
    (setCursor initialState ((-384 : ℚ), (-384 : ℚ))) { x := 0, y := 0 }
    resolveTile_at_00
  refine ⟨h.1 0 1, ?_, ?_⟩
  · have h2 := h.2.2
    simpa using h2
  · rw [h.1 0 1]
    decide

/-- C2: every pointer world position strictly inside the grid's
world-space bounds resolves to a grid coordinate with both components
below 7; every position strictly outside resolves to no cell; and the
default sentinel pointer position (-1000,-1000) resolves to no cell. -/
theorem C2_resolver_bounds (c : ℚ × ℚ) :
    (insideGridWorldBounds c → ∃ t, resolveTile c = some t ∧ t.x < 7 ∧ t.y < 7)
    ∧ (outsideGridWorldBounds c → resolveTile c = none)
    ∧ resolveTile cursorDefault = none := by
  have e1 : c.1 - mapTranslation.1 = c.1 + 384 := by
    norm_num [mapTranslation]
  have e2 : c.2 - mapTranslation.2 = c.2 + 384 := by
    norm_num [mapTranslation]
  have key1 : (c.1 + 384) / 128 + 1 / 2 = (c.1 + 448) / 128 := by
    ring
  have key2 : (c.2 + 384) / 128 + 1 / 2 = (c.2 + 448) / 128 := by
    ring
  refine ⟨?_, ?_, resolveTile_sentinel⟩
  · rintro ⟨h1, h2, h3, h4⟩
    unfold insideGridWorldBounds at *
    unfold resolveTile from_world_pos
    dsimp only
    rw [e1, e2, key1, key2]
    have f1 : (0 : ℤ) ≤ Int.floor ((c.1 + 448) / 128) := by
      rw [Int.le_floor]
      push_cast
      apply div_nonneg (by linarith) (by norm_num)
    have f2 : Int.floor ((c.1 + 448) / 128) < 7 := by
      rw [Int.floor_lt]
      push_cast
      rw [div_lt_iff (by norm_num : (0 : ℚ) < 128)]
      linarith
    have f3 : (0 : ℤ) ≤ Int.floor ((c.2 + 448) / 128) := by
      rw [Int.le_floor]
      push_cast
      apply div_nonneg (by linarith) (by norm_num)
    have f4 : Int.floor ((c.2 + 448) / 128) < 7 := by
      rw [Int.floor_lt]
      push_cast
      rw [div_lt_iff (by norm_num : (0 : ℚ) < 128)]
      linarith
    rw [if_pos ⟨f1, f3, f2, f4⟩]
    refine ⟨_, rfl, ?_, ?_⟩
    · show (Int.floor ((c.1 + 448) / 128)).toNat < 7
      omega
    · show (Int.floor ((c.2 + 448) / 128)).toNat < 7
      omega
  · intro hout
    unfold resolveTile from_world_pos
    dsimp only
    rw [e1, e2, key1, key2]
    apply if_neg
    rintro ⟨g1, g2, g3, g4⟩
    rcases hout with h | h | h | h
    · have gneg : Int.floor ((c.1 + 448) / 128) < 0 := by
        rw [Int.floor_lt]
        push_cast
        rw [div_lt_iff (by norm_num : (0 : ℚ) < 128)]
        linarith
      omega
    · have gge : (7 : ℤ) ≤ Int.floor ((c.1 + 448) / 128) := by
        rw [Int.le_floor]
        push_cast
        rw [le_div_iff (by norm_num : (0 : ℚ) < 128)]
        linarith
      omega
    · have gneg : Int.floor ((c.2 + 448) / 128) < 0 := by
        rw [Int.floor_lt]
        push_cast
        rw [div_lt_iff (by norm_num : (0 : ℚ) < 128)]
        linarith
      omega
    · have gge : (7 : ℤ) ≤ Int.floor ((c.2 + 448) / 128) := by
        rw [Int.le_floor]
        push_cast
        rw [le_div_iff (by norm_num : (0 : ℚ) < 128)]
        linarith
      omega

/-- Witness for C2: the world origin (0,0) is strictly inside the grid
bounds and resolves to a valid coordinate. -/
theorem C2_resolver_bounds_witness :
    ∃ t, resolveTile ((0 : ℚ), (0 : ℚ)) = some t ∧ t.x < 7 ∧ t.y < 7 :=
  (C2_resolver_bounds ((0 : ℚ), (0 : ℚ))).1
    (by unfold insideGridWorldBounds; norm_num)

/-- C4: upon a right-button press in a frame whose hover flags were set
by the propagator, every cell hovered at that moment ends at one and the
same target rotation state, the one determined by the shared rotation
counter — lockstep, not per-cell. -/
theorem C4_rotation_lockstep (s : GameState) (p : TilePos)
    (hp : p ∈ hoveredPositions (highlight_tile_labels s)) :
    ((rotate_highlighted_tile (highlight_tile_labels s)).cells p.x p.y).flip
      = flipTable (((highlight_tile_labels s).flips + 1) % 4) := by
  cases hres : resolveTile s.cursor with
  | none =>
    rw [hoveredPositions_highlight_none hres] at hp
    cases hp
  | some q =>
    rw [hoveredPositions_highlight_some hres] at hp
    rw [List.mem_singleton] at hp
    subst hp
    rw [rotate_single (hoveredPositions_highlight_some hres)]
    unfold rotStep
    simp [setCell]

/-- Witness for C4: pointer over tile (0,0), one right press from the
initial state — the hovered cell ends at the shared-counter state
`flipTable 1`. -/
theorem C4_rotation_lockstep_witness :
    ((rotate_highlighted_tile (highlight_tile_labels
        (setCursor initialState ((-384 : ℚ), (-384 : ℚ))))).cells 0 0).flip
      = { x := true, y := false, d := true : TileFlip } := by
  have hmem : ({ x := 0, y := 0 : TilePos })
      ∈ hoveredPositions (highlight_tile_labels
          (setCursor initialState ((-384 : ℚ), (-384 : ℚ)))) := by
    rw [hoveredPositions_highlight_some
      (s := setCursor initialState ((-384 : ℚ), (-384 : ℚ))) resolveTile_at_00]
    exact List.mem_singleton.mpr rfl
  have h := C4_rotation_lockstep
    (setCursor initialState ((-384 : ℚ), (-384 : ℚ))) { x := 0, y := 0 } hmem
  have h2 : flipTable (((highlight_tile_labels
      (setCursor initialState ((-384 : ℚ), (-384 : ℚ)))).flips + 1) % 4)
      = { x := true, y := false, d := true : TileFlip } := by
    rw [highlight_flips]
    rfl
  exact h.trans h2

/-- C5 counterexample: a reachable run refuting the claim.  From the
initial state, hover tile (0,0) and rotate twice (shared counter reaches
2), then move the pointer to tile (1,1) — whose rotation state is still
the identity — and apply exactly 4 rotate events targeting it with no
interleaved hover change.  Its flip ends at the counter-determined state
(x := true, y := true, d := false), not at its original identity state. -/
theorem C5_counterexample :
    (((rotate_highlighted_tile (highlight_tile_labels (rotate_highlighted_tile (highlight_tile_labels (rotate_highlighted_tile (highlight_tile_labels (rotate_highlighted_tile (highlight_tile_labels (setCursor (rotate_highlighted_tile (highlight_tile_labels (rotate_highlighted_tile (highlight_tile_labels (setCursor initialState ((-384 : ℚ), (-384 : ℚ))))))) ((-256 : ℚ), (-256 : ℚ))))))))))).cells 1 1).flip
      = { x := true, y := true, d := false : TileFlip })
    ∧ (((highlight_tile_labels (setCursor (rotate_highlighted_tile (highlight_tile_labels (rotate_highlighted_tile (highlight_tile_labels (setCursor initialState ((-384 : ℚ), (-384 : ℚ))))))) ((-256 : ℚ), (-256 : ℚ)))).cells 1 1).flip
      = { x := false, y := false, d := false : TileFlip })
    ∧ ({ x := true, y := true, d := false : TileFlip }
        ≠ { x := false, y := false, d := false : TileFlip }) := by
  set s0 : GameState := setCursor initialState ((-384 : ℚ), (-384 : ℚ)) with hs0
  set s1 : GameState := rotate_highlighted_tile (highlight_tile_labels s0) with hs1
  set s2 : GameState := rotate_highlighted_tile (highlight_tile_labels s1) with hs2
  set d : GameState := setCursor s2 ((-256 : ℚ), (-256 : ℚ)) with hd0
  set t1 : GameState := rotate_highlighted_tile (highlight_tile_labels d) with ht1
  set t2 : GameState := rotate_highlighted_tile (highlight_tile_labels t1) with ht2
  set t3 : GameState := rotate_highlighted_tile (highlight_tile_labels t2) with ht3
  set t4 : GameState := rotate_highlighted_tile (highlight_tile_labels t3) with ht4
  have hres0 : resolveTile s0.cursor = some { x := 0, y := 0 } := by
    rw [hs0]
    exact resolveTile_at_00
  have F1 := frame_step (s := s0) (p := { x := 0, y := 0 }) hres0
  have hres1 : resolveTile s1.cursor = some { x := 0, y := 0 } := by
    rw [hs1, F1.1]
    exact hres0
  have F2 := frame_step (s := s1) (p := { x := 0, y := 0 }) hres1
  have hflips2 : s2.flips = 2 := by
    rw [hs2, F2.2.1, hs1, F1.2.1, hs0]
    rfl
  have e2 : (s2.cells 1 1).flip = (s1.cells 1 1).flip := by
    rw [hs2, F2.2.2.1 1 1]
    norm_num
  have e1 : (s1.cells 1 1).flip = (s0.cells 1 1).flip := by
    rw [hs1, F1.2.2.1 1 1]
    norm_num
  have e0 : (s0.cells 1 1).flip = { x := false, y := false, d := false : TileFlip } := by
    rw [hs0]
    rfl
  have ebase : ((highlight_tile_labels d).cells 1 1).flip
      = { x := false, y := false, d := false : TileFlip } := by
    rw [highlight_cell_flip, hd0]
    exact e2.trans (e1.trans e0)
  have hfd : d.flips = 2 := by
    rw [hd0]
    exact hflips2
  have hresd : resolveTile d.cursor = some { x := 1, y := 1 } := by
    rw [hd0]
    exact resolveTile_at_11
  have G1 := frame_step (s := d) (p := { x := 1, y := 1 }) hresd
  have c1 : t1.cursor = d.cursor := by
    rw [ht1]
    exact G1.1
  have f1 : t1.flips = 3 := by
    rw [ht1, G1.2.1, hfd]
  have r1 : resolveTile t1.cursor = some { x := 1, y := 1 } := by
    rw [c1]
    exact hresd
  have G2 := frame_step (s := t1) (p := { x := 1, y := 1 }) r1
  have c2 : t2.cursor = t1.cursor := by
    rw [ht2]
    exact G2.1
  have f2 : t2.flips = 0 := by
    rw [ht2, G2.2.1, f1]
  have r2 : resolveTile t2.cursor = some { x := 1, y := 1 } := by
    rw [c2]
    exact r1
  have G3 := frame_step (s := t2) (p := { x := 1, y := 1 }) r2
  have c3 : t3.cursor = t2.cursor := by
    rw [ht3]
    exact G3.1
  have f3 : t3.flips = 1 := by
    rw [ht3, G3.2.1, f2]
  have r3 : resolveTile t3.cursor = some { x := 1, y := 1 } := by
    rw [c3]
    exact r2
  have G4 := frame_step (s := t3) (p := { x := 1, y := 1 }) r3
  have hfinal : (t4.cells 1 1).flip = flipTable ((t3.flips + 1) % 4) := by
    rw [ht4, G4.2.2.1 1 1]
    norm_num
  refine ⟨?_, ebase, by decide⟩
  rw [hfinal, f3]
  rfl

/-- C5 amended: after 4 rotate events targeting the same hovered cell
with no interleaved hover change, the shared rotation counter returns to
its prior value, and the cell's rotation state returns to its original
value provided that original value was in sync with the shared counter
(as holds e.g. for the most recently rotated cell, or a fresh cell while
the counter is 0); in general the cell ends at the counter-determined
state, not necessarily its own original one. -/
theorem C5_rotation_period_amended (s : GameState) (p : TilePos)
    (hres : resolveTile s.cursor = some p) (hf : s.flips < 4)
    (hsync : (s.cells p.x p.y).flip = flipTable s.flips) :
    ((rotate_highlighted_tile (highlight_tile_labels
      (rotate_highlighted_tile (highlight_tile_labels
      (rotate_highlighted_tile (highlight_tile_labels
      (rotate_highlighted_tile (highlight_tile_labels s)))))))).cells p.x p.y).flip
      = (s.cells p.x p.y).flip
    ∧ (rotate_highlighted_tile (highlight_tile_labels
      (rotate_highlighted_tile (highlight_tile_labels
      (rotate_highlighted_tile (highlight_tile_labels
      (rotate_highlighted_tile (highlight_tile_labels s)))))))).flips = s.flips := by
  have G1 := frame_step (s := s) (p := p) hres
  have r1 : resolveTile (rotate_highlighted_tile (highlight_tile_labels s)).cursor
      = some p := by
    rw [G1.1]
    exact hres
  have G2 := frame_step (p := p) r1
  have r2 : resolveTile (rotate_highlighted_tile (highlight_tile_labels
      (rotate_highlighted_tile (highlight_tile_labels s)))).cursor = some p := by
    rw [G2.1]
    exact r1
  have G3 := frame_step (p := p) r2
  have r3 : resolveTile (rotate_highlighted_tile (highlight_tile_labels
      (rotate_highlighted_tile (highlight_tile_labels
      (rotate_highlighted_tile (highlight_tile_labels s)))))).cursor = some p := by
    rw [G3.1]
    exact r2
  have G4 := frame_step (p := p) r3
  have harith : ((((s.flips + 1) % 4 + 1) % 4 + 1) % 4 + 1) % 4 = s.flips := by
    omega
  constructor
  · rw [G4.2.2.1 p.x p.y, if_pos ⟨rfl, rfl⟩, G3.2.1, G2.2.1, G1.2.1, harith, hsync]
  · rw [G4.2.1, G3.2.1, G2.2.1, G1.2.1, harith]

/-- Witness for C5 amended: tile (0,0) fresh from the initial state with
counter 0 (in sync): 4 rotate events return both its flip and the counter
to their original values. -/
theorem C5_rotation_period_amended_witness :
    ((rotate_highlighted_tile (highlight_tile_labels
      (rotate_highlighted_tile (highlight_tile_labels
      (rotate_highlighted_tile (highlight_tile_labels
      (rotate_highlighted_tile (highlight_tile_labels
        (setCursor initialState ((-384 : ℚ), (-384 : ℚ))))))))))).cells 0 0).flip
      = ((setCursor initialState ((-384 : ℚ), (-384 : ℚ))).cells 0 0).flip
    ∧ (rotate_highlighted_tile (highlight_tile_labels
      (rotate_highlighted_tile (highlight_tile_labels
      (rotate_highlighted_tile (highlight_tile_labels
      (rotate_highlighted_tile (highlight_tile_labels
        (setCursor initialState ((-384 : ℚ), (-384 : ℚ))))))))))).flips
      = (setCursor initialState ((-384 : ℚ), (-384 : ℚ))).flips :=
  C5_rotation_period_amended
    (setCursor initialState ((-384 : ℚ), (-384 : ℚ))) { x := 0, y := 0 }
    resolveTile_at_00 (by decide) rfl

/-- C8: a placed `type_index` persists across the hover pass, rotation,
cursor advance and pointer movement, and across placement events while
the cell is not hovered — no operation implicitly clears it. -/
theorem C8_type_persistence (s : GameState) (x y : Nat) :
    ((highlight_tile_labels s).cells x y).tile_type = (s.cells x y).tile_type
    ∧ ((rotate_highlighted_tile s).cells x y).tile_type = (s.cells x y).tile_type
    ∧ ((cycle_tile_texture_index s).cells x y).tile_type = (s.cells x y).tile_type
    ∧ (∀ q : ℚ × ℚ, ((setCursor s q).cells x y).tile_type = (s.cells x y).tile_type)
    ∧ ((s.cells x y).hovered = false →
        ((place_highlighted_tile s).cells x y).tile_type = (s.cells x y).tile_type) := by
  refine ⟨highlight_cell_tile_type s x y, (rotate_cells_pres s x y).2.2, rfl,
    fun _ => rfl, ?_⟩
  intro h
  simp [place_highlighted_tile, h]

/-- Witness for C8: the spec scenario.  Hover (3,3), place with cursor 1;
advance the cursor to 2; hover (4,3), place.  Cell (4,3) holds type 2 and
cell (3,3) still holds type 1. -/
theorem C8_type_persistence_witness :
    ((place_highlighted_tile (highlight_tile_labels (setCursor
        (cycle_tile_texture_index (place_highlighted_tile (highlight_tile_labels
          (setCursor initialState ((0 : ℚ), (0 : ℚ))))))
        ((128 : ℚ), (0 : ℚ))))).cells 3 3).tile_type = some 1
    ∧ ((place_highlighted_tile (highlight_tile_labels (setCursor
        (cycle_tile_texture_index (place_highlighted_tile (highlight_tile_labels
          (setCursor initialState ((0 : ℚ), (0 : ℚ))))))
        ((128 : ℚ), (0 : ℚ))))).cells 4 3).tile_type = some 2 := by
  set w1 : GameState := highlight_tile_labels
    (setCursor initialState ((0 : ℚ), (0 : ℚ))) with hw1
  set w2 : GameState := place_highlighted_tile w1 with hw2
  set w3 : GameState := cycle_tile_texture_index w2 with hw3
  set w4 : GameState := highlight_tile_labels
    (setCursor w3 ((128 : ℚ), (0 : ℚ))) with hw4
  set w5 : GameState := place_highlighted_tile w4 with hw5
  have h33h : (w1.cells 3 3).hovered = true := by
    rw [hw1, highlight_cell_some
      (s := setCursor initialState ((0 : ℚ), (0 : ℚ))) 3 3 resolveTile_at_33]
    rfl
  have hw1n : w1.next_index = 1 := by
    rw [hw1, highlight_next_index]
    rfl
  have h2 : (w2.cells 3 3).tile_type = some w1.next_index := by
    rw [hw2]
    simp [place_highlighted_tile, h33h]
  have h3 : (w3.cells 3 3).tile_type = (w2.cells 3 3).tile_type := by
    rw [hw3]
    exact (C8_type_persistence w2 3 3).2.2.1
  have h4 : (w4.cells 3 3).tile_type = (w3.cells 3 3).tile_type := by
    rw [hw4]
    have a1 := (C8_type_persistence (setCursor w3 ((128 : ℚ), (0 : ℚ))) 3 3).1
    rw [a1]
    exact (C8_type_persistence w3 3 3).2.2.2.1 ((128 : ℚ), (0 : ℚ))
  have h44hov : (w4.cells 3 3).hovered = false := by
    rw [hw4, highlight_cell_some
      (s := setCursor w3 ((128 : ℚ), (0 : ℚ))) 3 3 resolveTile_at_43]
    rfl
  have h5 : (w5.cells 3 3).tile_type = (w4.cells 3 3).tile_type := by
    rw [hw5]
    exact (C8_type_persistence w4 3 3).2.2.2.2 h44hov
  have h43hov : (w4.cells 4 3).hovered = true := by
    rw [hw4, highlight_cell_some
      (s := setCursor w3 ((128 : ℚ), (0 : ℚ))) 4 3 resolveTile_at_43]
    rfl
  have h5b : (w5.cells 4 3).tile_type = some w4.next_index := by
    rw [hw5]
    simp [place_highlighted_tile, h43hov]
  have hw4n : w4.next_index = 2 := by
    rw [hw4, highlight_next_index]
    show w3.next_index = 2
    rw [hw3]
    show NextTileTextureIndex.next w2.next_index = 2
    rw [hw2]
    show NextTileTextureIndex.next w1.next_index = 2
    rw [hw1n]
    rfl
  constructor
  · rw [h5, h4, h3, h2, hw1n]
  · rw [h5b, hw4n]

end Nightcage
